import Mathlib

/-!
Verification development for the BIMailer repository.

The Python sources under Scripts/ are shallowly embedded as Lean
definitions: pure helpers become Lean functions over List Char / String,
stateful code (the processing lock) becomes explicit state passing, and
side effects of the per-folder pipeline (dispatch attempts, archive moves)
are recorded in an explicit event trace.  Collaborator calls whose results
depend on the outside world (SMTP, the filesystem) are passed in as
oracle parameters; every Python method involved wraps its body in a
try/except returning a failure value, so oracles are total.
-/

namespace BIMailer

/-! ## utils.py: email validation and list splitting -/

/-- Character class of the local part in validate_email's regex,
    [a-zA-Z0-9._%+-]. -/
def isLocalChar (c : Char) : Bool :=
  c.isAlpha || c.isDigit || c = '.' || c = '_' || c = '%' || c = '+' || c = '-'

/-- Character class of the domain part, [a-zA-Z0-9.-]. -/
def isDomainChar (c : Char) : Bool :=
  c.isAlpha || c.isDigit || c = '.' || c = '-'

/-- Suffix after the last matched dot: [a-zA-Z]\x7b2,\x7d anchored at the end. -/
def isTldTail (l : List Char) : Bool :=
  decide (2 ≤ l.length) && l.all Char.isAlpha

/-- The part after the '@' must match [a-zA-Z0-9.-]+\.[a-zA-Z]\x7b2,\x7d$:
    some split point j gives a nonempty domain, a dot, and an alphabetic
    suffix of length at least two. -/
def domainCheck (l : List Char) : Bool :=
  (List.range l.length).any fun j =>
    decide (0 < j) && (l.take j).all isDomainChar &&
      (l.drop j).head? == some '.' &&
      isTldTail (l.drop (j + 1))

/-- utils.validate_email: the string matches
    ^[a-zA-Z0-9._%+-]+@[a-zA-Z0-9.-]+\.[a-zA-Z]\x7b2,\x7d$.
    None of the character classes contains '@', so the regex matches
    exactly when some split point i gives a nonempty local part, an '@',
    and a matching domain remainder. -/
def validate_email (l : List Char) : Bool :=
  (List.range l.length).any fun i =>
    decide (0 < i) && (l.take i).all isLocalChar &&
      (l.drop i).head? == some '@' &&
      domainCheck (l.drop (i + 1))

/-- Whitespace characters removed by Python str.strip (ASCII subset). -/
def isPySpace (c : Char) : Bool :=
  c = ' ' || c = '\t' || c = '\n' || c = '\r' || c = '\x0b' || c = '\x0c'

/-- Python str.strip: drop whitespace from both ends. -/
def pyStrip (l : List Char) : List Char :=
  ((l.dropWhile isPySpace).reverse.dropWhile isPySpace).reverse

/-- Python str.split on the semicolon delimiter; keeps empty components,
    and the empty string yields one empty component. -/
def splitSemi : List Char → List (List Char)
  | [] => [[]]
  | c :: cs =>
    match splitSemi cs, decide (c = ';') with
    | r, true => [] :: r
    | [], false => [[c]]
    | h :: t, false => (c :: h) :: t

/-- utils.split_email_list on a string input (the None / pandas-NaN float
    branches return [] before the string logic and are not representable
    here): return [] for an effectively empty string or the literal nan,
    otherwise split on semicolons, strip each component, and keep only the
    components that pass validate_email.  The logged warning for dropped
    components is outside the model. -/
def split_email_list (l : List Char) : List (List Char) :=
  if pyStrip l = [] then []
  else if l.map Char.toLower = ['n', 'a', 'n'] then []
  else ((splitSemi l).map pyStrip).filter validate_email

example : validate_email "test@example.com".toList = true := by decide
example : validate_email "invalid-email".toList = false := by decide
example : validate_email "a@b.c".toList = false := by decide
example : validate_email "a@b.co".toList = true := by decide
example : validate_email "a@@b.co".toList = false := by decide
example : validate_email "a@b.c.de".toList = true := by decide
example : split_email_list "a@test.com;b@test.com;invalid-email".toList =
    ["a@test.com".toList, "b@test.com".toList] := by decide
example : split_email_list " a@test.com ; b@test.com ".toList =
    ["a@test.com".toList, "b@test.com".toList] := by decide
example : split_email_list "nAn".toList = [] := by decide
example : split_email_list "   ".toList = [] := by decide

/-! ## utils.py: ProcessingLock

The lock marker file is modelled by an optional LockMarker carrying both
clocks visible to the code: the filesystem modification time of the file
(mtime, what stat().st_mtime returns) and the timestamp the code writes
into the JSON body (dataTimestamp), plus the recorded pid.  Times are
seconds as integers.  Writing the file sets both clocks to the current
time. -/

/-- On-disk lock marker state. -/
structure LockMarker where
  mtime : Int
  dataTimestamp : Int
  pid : Nat
deriving DecidableEq, Repr

/-- Filesystem state seen by ProcessingLock: the marker file, if present. -/
structure LockState where
  marker : Option LockMarker
deriving DecidableEq, Repr

/-- ProcessingLock.acquire_lock: if the marker file exists and its mtime
    age strictly exceeds timeout_minutes * 60 seconds it is deleted and a
    fresh marker (current timestamp in the JSON body, current pid) is
    created; if it exists and is not stale the call returns False at once
    without touching the state; if absent the fresh marker is created.
    Returns the Python boolean result and the new state. -/
def acquire_lock (now : Int) (pid : Nat) (timeout_minutes : Int)
    (s : LockState) : Bool × LockState :=
  match s.marker with
  | some m =>
    if now - m.mtime > timeout_minutes * 60 then
      (true, ⟨some ⟨now, now, pid⟩⟩)
    else
      (false, s)
  | none => (true, ⟨some ⟨now, now, pid⟩⟩)

/-- ProcessingLock.release_lock: delete the marker if present, no-op
    otherwise. -/
def release_lock (_s : LockState) : LockState := ⟨none⟩

/-! ## utils.get_png_files and the PNG merge of pdf_generator.py

A PNG file is its containing directory plus its filename.  Filenames
within one directory are distinct; theorems that need this take it as a
Nodup hypothesis on the listing.  get_png_files collects the directory's
matching entries and sorts them; for entries of a single directory,
sorting by full path is sorting by filename (Python compares strings by
code point, as Lean's String order does). -/

/-- One PNG file: the directory it lives in and its filename. -/
structure PngFile where
  dir : String
  name : String
deriving DecidableEq, Repr

/-- Lexicographic comparison of character sequences by code point, the
    order Python's sorted applies to strings. -/
def charListLe : List Char → List Char → Bool
  | [], _ => true
  | _ :: _, [] => false
  | a :: as, b :: bs =>
    if a.toNat < b.toNat then true
    else if b.toNat < a.toNat then false
    else charListLe as bs

/-- Ordering used by the sort in get_png_files: filename order. -/
def pngLe (a b : PngFile) : Prop :=
  charListLe a.name.data b.name.data = true

instance : DecidableRel pngLe := fun _a _b =>
  inferInstanceAs (Decidable (_ = true))

/-- charListLe is total. -/
theorem charListLe_total :
    ∀ x y : List Char, charListLe x y = true ∨ charListLe y x = true := by
  intro x
  induction x with
  | nil => intro y; left; rfl
  | cons a as ih =>
    intro y
    cases y with
    | nil => right; rfl
    | cons b bs =>
      by_cases h1 : a.toNat < b.toNat
      · left; simp [charListLe, h1]
      · by_cases h2 : b.toNat < a.toNat
        · right; simp [charListLe, h2]
        · rcases ih bs with h | h
          · left; simp [charListLe, h1, h2, h]
          · right; simp [charListLe, h1, h2, h]

/-- charListLe is transitive. -/
theorem charListLe_trans :
    ∀ x y z : List Char, charListLe x y = true → charListLe y z = true →
      charListLe x z = true := by
  intro x
  induction x with
  | nil => intro y z _ _; rfl
  | cons a as ih =>
    intro y z hxy hyz
    cases y with
    | nil => simp [charListLe] at hxy
    | cons b bs =>
      cases z with
      | nil => simp [charListLe] at hyz
      | cons c cs =>
        simp only [charListLe] at hxy hyz ⊢
        by_cases h1 : a.toNat < b.toNat
        · by_cases h2 : b.toNat < c.toNat
          · have h : a.toNat < c.toNat := by omega
            simp [h]
          · by_cases h3 : c.toNat < b.toNat
            · simp [h2, h3] at hyz
            · have h : a.toNat < c.toNat := by omega
              simp [h]
        · by_cases h1' : b.toNat < a.toNat
          · simp [h1, h1'] at hxy
          · simp only [h1, if_false, h1', ite_false] at hxy
            by_cases h2 : b.toNat < c.toNat
            · have h : a.toNat < c.toNat := by omega
              simp [h]
            · by_cases h3 : c.toNat < b.toNat
              · simp [h2, h3] at hyz
              · simp only [h2, if_false, h3, ite_false] at hyz
                have h4 : ¬a.toNat < c.toNat := by omega
                have h5 : ¬c.toNat < a.toNat := by omega
                simp [h4, h5]
                exact ih bs cs hxy hyz

instance : IsTotal PngFile pngLe :=
  ⟨fun a b => charListLe_total a.name.data b.name.data⟩

instance : IsTrans PngFile pngLe :=
  ⟨fun a b c => charListLe_trans a.name.data b.name.data c.name.data⟩

/-- utils.get_png_files: the files of one directory matching the
    configured extensions, sorted alphabetically. -/
def get_png_files (entries : List PngFile) : List PngFile :=
  List.insertionSort pngLe entries

/-- One Python-dict insertion, ordered-dict semantics keyed by filename:
    overwriting a present key keeps its position, a new key is appended. -/
def dictInsert (m : List PngFile) (f : PngFile) : List PngFile :=
  if m.any (fun g => g.name == f.name) then
    m.map (fun g => if g.name == f.name then f else g)
  else m ++ [f]

/-- The unique_files merge of PDFGenerator.generate_pdf_for_folder:
    insert every ALL-folder file first (these take priority), then insert
    each folder-specific file only if its filename is not already present;
    the result is the dict's values in insertion order. -/
def combine_png_files (all_pngs folder_pngs : List PngFile) : List PngFile :=
  let afterAll := all_pngs.foldl dictInsert []
  folder_pngs.foldl
    (fun m f => if m.any (fun g => g.name == f.name) then m else m ++ [f])
    afterAll

/-! ## config_manager.py -/

/-- config_manager.MailingEntry: one row of the mailing list. -/
structure MailingEntry where
  pdf_name : String
  recipients : List String
  cc : List String
  subject : String
deriving DecidableEq, Repr

/-- Email section of settings.ini (fields used by validation). -/
structure EmailCfg where
  use_default_mailer : Bool
  smtp_server : String
  smtp_username : String
  smtp_password : String
deriving DecidableEq, Repr

/-- Admin section of settings.ini (fields used by validation). -/
structure AdminCfg where
  admin_emails : List String
  send_summary_email : Bool
  send_error_notifications : Bool
deriving DecidableEq, Repr

/-- The ConfigManager data validate_configuration reads: settings plus
    the folder-to-PDF-name mapping (a dict, modelled as an association
    list with unique keys) and the mailing list. -/
structure Config where
  email_config : EmailCfg
  admin_config : AdminCfg
  pdf_names_mapping : List (String × String)
  mailing_list : List MailingEntry
deriving DecidableEq, Repr

/-- ConfigManager.get_mailing_entries_for_pdf: the mailing-list rows whose
    pdf_name equals the given one, in list order. -/
def get_mailing_entries_for_pdf (mailing_list : List MailingEntry)
    (pdf_name : String) : List MailingEntry :=
  mailing_list.filter (fun e => e.pdf_name == pdf_name)

/-- One violation per errors.append site in validate_configuration.  The
    code appends human-readable strings; only identity matters here. -/
inductive Violation where
  | smtpServerMissing
  | smtpUsernameMissing
  | smtpPasswordMissing
  | adminEmailsMissing
  | noPdfNamesMapping
  | noMailingList
  | orphanedPdfNames
  | missingMailingEntries
deriving DecidableEq, Repr

/-- ConfigManager.validate_configuration: collect the error list in code
    order and return (is_valid, errors) with is_valid iff no errors.  The
    orphaned check is nonemptiness of mailing-list pdf_names minus mapping
    values; the missing check is nonemptiness of mapping values minus
    mailing-list pdf_names after discarding the literal Global Headers. -/
def validate_configuration (c : Config) : Bool × List Violation :=
  let errors : List Violation :=
    (if !c.email_config.use_default_mailer && c.email_config.smtp_server == ""
      then [Violation.smtpServerMissing] else []) ++
    (if !c.email_config.use_default_mailer && c.email_config.smtp_username == ""
      then [Violation.smtpUsernameMissing] else []) ++
    (if !c.email_config.use_default_mailer && c.email_config.smtp_password == ""
      then [Violation.smtpPasswordMissing] else []) ++
    (if (c.admin_config.send_summary_email || c.admin_config.send_error_notifications)
        && c.admin_config.admin_emails.isEmpty
      then [Violation.adminEmailsMissing] else []) ++
    (if c.pdf_names_mapping.isEmpty then [Violation.noPdfNamesMapping] else []) ++
    (if c.mailing_list.isEmpty then [Violation.noMailingList] else []) ++
    (if c.mailing_list.any
        (fun e => !c.pdf_names_mapping.any (fun kv => kv.2 == e.pdf_name))
      then [Violation.orphanedPdfNames] else []) ++
    (if c.pdf_names_mapping.any
        (fun kv => kv.2 != "Global Headers"
          && !c.mailing_list.any (fun e => e.pdf_name == kv.2))
      then [Violation.missingMailingEntries] else [])
  (errors.isEmpty, errors)

/-! ## email_sender.py and the per-folder pipeline of main.py

Externally visible side effects are recorded as events: one dispatch
attempt per call of EmailSender._send_single_email, and one event per
archive call of FileManager (the only operations that move or delete the
folder's source images and the rendered document). -/

/-- Observable side effects of one folder's processing. -/
inductive Event where
  | dispatchAttempt (entry : MailingEntry)
  | archivePdf (pdf_path : String)
  | archivePngs (folder_name : String)
deriving DecidableEq, Repr

/-- The dispatch loop of EmailSender.send_pdf_emails: call
    _send_single_email for every entry in order, counting successes.
    dispatch is the oracle for the transport outcome of one entry. -/
def sendLoop (dispatch : MailingEntry → Bool) (entries : List MailingEntry) :
    Nat × List Event :=
  entries.foldl
    (fun acc e =>
      ((if dispatch e then acc.1 + 1 else acc.1),
        acc.2 ++ [Event.dispatchAttempt e]))
    (0, [])

/-- EmailSender.send_pdf_emails: look up the mailing entries for the PDF
    name; fail with no dispatch if there are none; fail with no dispatch
    if the internal attachment-size check fails; otherwise dispatch once
    per entry and succeed iff every entry succeeded.  size_ok is the
    oracle for _validate_attachment_size on this PDF. -/
def send_pdf_emails (mailing_list : List MailingEntry) (pdf_name : String)
    (size_ok : Bool) (dispatch : MailingEntry → Bool) : Bool × List Event :=
  let entries := get_mailing_entries_for_pdf mailing_list pdf_name
  if entries.isEmpty then (false, [])
  else if !size_ok then (false, [])
  else
    let r := sendLoop dispatch entries
    (r.1 == entries.length, r.2)

/-! ## pdf_generator.generate_pdf_for_folder -/

/-- PDFGenerator.generate_pdf_for_folder: None when the folder has no
    configured PDF name, when the input folder is missing, or when the
    combined (ALL-merged, deduplicated) image list is empty; otherwise the
    rendered document's path when _create_pdf succeeds.  pdf_name_cfg,
    folder_exists, create_ok and out_path stand for the configuration
    lookup, the filesystem test, the renderer outcome and the timestamped
    output path. -/
def generate_pdf_for_folder (pdf_name_cfg : Option String)
    (folder_exists : Bool) (all_pngs folder_pngs : List PngFile)
    (create_ok : Bool) (out_path : String) : Option String :=
  match pdf_name_cfg with
  | none => none
  | some _ =>
    if !folder_exists then none
    else
      let files := combine_png_files (get_png_files all_pngs)
        (get_png_files folder_pngs)
      if files.isEmpty then none
      else if create_ok then some out_path else none

/-! ## main.BIMailerOrchestrator._process_single_folder -/

/-- The per-folder outcome record built by _process_single_folder
    (timestamps omitted; they carry no decision logic). -/
structure FolderResult where
  folder_name : String
  pdf_created : Bool
  emails_sent : Bool
  files_archived : Bool
  error : Option String
  pdf_path : Option String
deriving DecidableEq, Repr

/-- Oracles for one folder's collaborator calls.  pdf_path is the result
    of generate_pdf_for_folder; size_ok is the size comparison of the
    rendered document against max_attachment_size_mb (validate_pdf_size
    and _validate_attachment_size compute the same comparison on the same
    file, so one oracle covers both); metadata_pdf_name is the pdf_name
    field of the metadata sidecar (the configured document name, or the
    folder name fallback when the sidecar is unreadable); dispatch gives
    each entry's transport outcome; the archive flags are the results of
    FileManager.archive_sent_pdf and archive_processed_pngs. -/
structure FolderEnv where
  pdf_path : Option String
  size_ok : Bool
  metadata_pdf_name : String
  dispatch : MailingEntry → Bool
  pdf_archive_ok : Bool
  png_archive_ok : Bool

/-- How one folder's processing goes: either the body of the try block
    runs to completion with the given oracles, or an exception with the
    given message escapes a stage and is caught by the handler (modelled
    as raised before any collaborator side effect). -/
inductive FolderBehavior where
  | normal (env : FolderEnv)
  | raises (msg : String)

/-- BIMailerOrchestrator._process_single_folder: the straight-line
    pipeline PDF generation, size validation, dispatch, conditional
    archiving, writing one outcome record, with the except branch
    capturing an exception message into the error field.  Returns the
    record and the event trace. -/
def process_single_folder (folder_name : String)
    (mailing_list : List MailingEntry) (b : FolderBehavior) :
    FolderResult × List Event :=
  let r0 : FolderResult :=
    { folder_name := folder_name, pdf_created := false,
      emails_sent := false, files_archived := false,
      error := none, pdf_path := none }
  match b with
  | .raises msg =>
    ({ r0 with error := some ("Processing exception: " ++ msg) }, [])
  | .normal env =>
    match env.pdf_path with
    | none => ({ r0 with error := some "PDF generation failed" }, [])
    | some p =>
      let r1 := { r0 with pdf_created := true, pdf_path := some p }
      if !env.size_ok then
        ({ r1 with error := some "PDF size validation failed" }, [])
      else
        let sent := send_pdf_emails mailing_list env.metadata_pdf_name
          env.size_ok env.dispatch
        let emails_success := sent.1
        let r2 := { r1 with
          emails_sent := emails_success,
          error := if emails_success then r1.error
            else some "Email sending failed" }
        if emails_success then
          let archived := env.pdf_archive_ok && env.png_archive_ok
          ({ r2 with
              files_archived := archived,
              error := if archived then r2.error
                else some "File archiving failed" },
            sent.2 ++ [Event.archivePdf p, Event.archivePngs folder_name])
        else (r2, sent.2)

/-! ## main.BIMailerOrchestrator.run_full_processing and main() -/

/-- run_full_processing over the discovered folder list: process each
    folder sequentially and collect one outcome per folder.  The admin
    summary and the cleanup calls wrap their bodies in try/except and so
    never abort the run; they carry no decision logic and are omitted. -/
def run_full_processing (mailing_list : List MailingEntry)
    (folders : List (String × FolderBehavior)) :
    List (String × FolderResult) :=
  folders.map (fun f => (f.1, (process_single_folder f.1 mailing_list f.2).1))

/-- The run-level control flow of main() and BIMailerOrchestrator.__init__:
    configuration validation failure raises before any folder begins, a
    failed lock acquisition raises RuntimeError from ProcessingLock's
    context-manager entry, and otherwise every discovered folder is
    processed. -/
def run_system (c : Config) (lk : LockState) (now : Int) (pid : Nat)
    (timeout_minutes : Int) (folders : List (String × FolderBehavior)) :
    Except String (List (String × FolderResult)) :=
  if !(validate_configuration c).1 then
    .error "Configuration validation failed"
  else if !(acquire_lock now pid timeout_minutes lk).1 then
    .error "Could not acquire processing lock"
  else
    .ok (run_full_processing c.mailing_list folders)

/-! ## Theorems -/

/-- C3: whenever a non-stale lock marker exists (its age does not exceed
    the configured timeout), a second acquisition attempt returns False
    immediately and leaves the state unchanged (acquire_lock is a single
    pure step: no blocking, no retry, no marker modification); in
    particular, acquiring twice in a row without a release, within the
    timeout, yields Busy the second time. -/
theorem acquire_lock_busy_when_live (now : Int) (pid : Nat) (t : Int)
    (s : LockState) (m : LockMarker) (hm : s.marker = some m)
    (hfresh : now - m.mtime ≤ t * 60) :
    acquire_lock now pid t s = (false, s) ∧
    ∀ now0 now1 : Int, ∀ pid0 pid1 : Nat, now1 - now0 ≤ t * 60 →
      acquire_lock now1 pid1 t (acquire_lock now0 pid0 t ⟨none⟩).2 =
        (false, (acquire_lock now0 pid0 t ⟨none⟩).2) := by
  constructor
  · unfold acquire_lock
    rw [hm]
    simp [not_lt.mpr hfresh]
  · intro now0 now1 pid0 pid1 h
    have h2 : (acquire_lock now0 pid0 t ⟨none⟩).2 =
        ⟨some ⟨now0, now0, pid0⟩⟩ := rfl
    rw [h2]
    unfold acquire_lock
    simp [not_lt.mpr h]

/-- Witness for C3 at concrete inputs: a marker acquired at time 100 is
    still live at time 200 under a 30-minute timeout, and a second
    acquisition right after a first one is refused. -/
theorem acquire_lock_busy_when_live_witness :
    acquire_lock 200 6 30 ⟨some ⟨100, 100, 5⟩⟩ =
      (false, ⟨some ⟨100, 100, 5⟩⟩) ∧
    acquire_lock 20 2 30 (acquire_lock 10 1 30 ⟨none⟩).2 =
      (false, (acquire_lock 10 1 30 ⟨none⟩).2) :=
  ⟨(acquire_lock_busy_when_live 200 6 30 ⟨some ⟨100, 100, 5⟩⟩
      ⟨100, 100, 5⟩ rfl (by decide)).1,
   (acquire_lock_busy_when_live 200 6 30 ⟨some ⟨100, 100, 5⟩⟩
      ⟨100, 100, 5⟩ rfl (by decide)).2 10 20 1 2 (by decide)⟩

/-- C4 counterexample: a marker whose recorded JSON timestamp is 0 while
    the file's modification time is 1900.  At time 2000 with a 10-minute
    timeout the marker is stale by the timestamp recorded inside the
    marker (2000 - 0 > 600), yet acquire_lock returns Busy and leaves the
    marker untouched, because the code reads stat().st_mtime and
    2000 - 1900 = 100 is within the timeout.  The staleness clock is the
    file modification time, not the stored timestamp. -/
theorem acquire_lock_data_timestamp_counterexample :
    (2000 : Int) - (0 : Int) > 10 * 60 ∧
    acquire_lock 2000 7 10 ⟨some ⟨1900, 0, 1⟩⟩ =
      (false, ⟨some ⟨1900, 0, 1⟩⟩) := by
  exact ⟨by decide, rfl⟩

/-- C4 amended: a lock marker is considered stale exactly when now minus
    the marker file's modification time exceeds the configured timeout
    (the stored JSON timestamp is written but never read back); a stale
    marker is forcibly removed and acquisition proceeds to create a fresh
    marker holding the current timestamp and the owning process id. -/
theorem acquire_lock_stale_by_mtime (now : Int) (pid : Nat) (t : Int)
    (s : LockState) (m : LockMarker) (hm : s.marker = some m) :
    (now - m.mtime > t * 60 →
      acquire_lock now pid t s = (true, ⟨some ⟨now, now, pid⟩⟩)) ∧
    (now - m.mtime ≤ t * 60 → acquire_lock now pid t s = (false, s)) := by
  constructor
  · intro h
    unfold acquire_lock
    rw [hm]
    simp [h]
  · intro h
    unfold acquire_lock
    rw [hm]
    simp [not_lt.mpr h]

/-- Witness for the amended C4 at concrete inputs: at time 5000 a marker
    with mtime 100 under a 10-minute timeout is removed and replaced by a
    fresh marker with timestamp 5000 and pid 9, while at time 500 it is
    kept. -/
theorem acquire_lock_stale_by_mtime_witness :
    acquire_lock 5000 9 10 ⟨some ⟨100, 100, 1⟩⟩ =
      (true, ⟨some ⟨5000, 5000, 9⟩⟩) ∧
    acquire_lock 500 9 10 ⟨some ⟨100, 100, 1⟩⟩ =
      (false, ⟨some ⟨100, 100, 1⟩⟩) :=
  ⟨(acquire_lock_stale_by_mtime 5000 9 10 ⟨some ⟨100, 100, 1⟩⟩
      ⟨100, 100, 1⟩ rfl).1 (by decide),
   (acquire_lock_stale_by_mtime 500 9 10 ⟨some ⟨100, 100, 1⟩⟩
      ⟨100, 100, 1⟩ rfl).2 (by decide)⟩

/-- A valid configuration, phrased from the specification: SMTP settings
    present when the direct transport is selected, admin addresses present
    when notifications are enabled, a nonempty folder-to-document mapping
    and a nonempty mailing list, every mailing-list document name defined
    in the mapping, and every mapped document name other than the global
    pseudo-document referenced by some mailing entry. -/
def ConfigValidSpec (c : Config) : Prop :=
  (c.email_config.use_default_mailer = false →
    c.email_config.smtp_server ≠ "" ∧ c.email_config.smtp_username ≠ "" ∧
      c.email_config.smtp_password ≠ "") ∧
  ((c.admin_config.send_summary_email = true ∨
      c.admin_config.send_error_notifications = true) →
    c.admin_config.admin_emails ≠ []) ∧
  c.pdf_names_mapping ≠ [] ∧
  c.mailing_list ≠ [] ∧
  (∀ e ∈ c.mailing_list, ∃ kv ∈ c.pdf_names_mapping, kv.2 = e.pdf_name) ∧
  (∀ kv ∈ c.pdf_names_mapping, kv.2 ≠ "Global Headers" →
    ∃ e ∈ c.mailing_list, e.pdf_name = kv.2)

/-- C8: validate_configuration reports a violation when some mailing-list
    entry's document name is not a value of the folder-to-document
    mapping, reports a violation when some mapped document name other
    than the Global Headers pseudo-document has no mailing-list entry,
    and returns no violations on every valid configuration. -/
theorem validate_configuration_cross_reference (c : Config) :
    (∀ e ∈ c.mailing_list,
      (∀ kv ∈ c.pdf_names_mapping, kv.2 ≠ e.pdf_name) →
      Violation.orphanedPdfNames ∈ (validate_configuration c).2) ∧
    (∀ kv ∈ c.pdf_names_mapping, kv.2 ≠ "Global Headers" →
      (∀ e ∈ c.mailing_list, e.pdf_name ≠ kv.2) →
      Violation.missingMailingEntries ∈ (validate_configuration c).2) ∧
    (ConfigValidSpec c → validate_configuration c = (true, [])) := by
  refine ⟨?_, ?_, ?_⟩
  · intro e he hundef
    have h : c.mailing_list.any
        (fun e => !c.pdf_names_mapping.any (fun kv => kv.2 == e.pdf_name))
          = true := by
      refine List.any_eq_true.mpr ⟨e, he, ?_⟩
      simp only [Bool.not_eq_true', List.any_eq_false]
      intro kv hkv
      simpa using hundef kv hkv
    simp [validate_configuration, h]
  · intro kv hkv hgh hnoentry
    have h : c.pdf_names_mapping.any
        (fun kv => kv.2 != "Global Headers"
          && !c.mailing_list.any (fun e => e.pdf_name == kv.2)) = true := by
      refine List.any_eq_true.mpr ⟨kv, hkv, ?_⟩
      rw [Bool.and_eq_true]
      refine ⟨by simpa using hgh, ?_⟩
      simp only [Bool.not_eq_true', List.any_eq_false]
      intro e heml
      simpa using hnoentry e heml
    simp [validate_configuration, h]
  · rintro ⟨hsmtp, hadmin, hmap, hml, horphan, hmissing⟩
    have h1 : ∀ v : Violation,
        (!c.email_config.use_default_mailer
          && c.email_config.smtp_server == "") = false ∧
        (!c.email_config.use_default_mailer
          && c.email_config.smtp_username == "") = false ∧
        (!c.email_config.use_default_mailer
          && c.email_config.smtp_password == "") = false := by
      intro _
      cases hud : c.email_config.use_default_mailer with
      | true => simp
      | false =>
        obtain ⟨hs, hu, hp⟩ := hsmtp hud
        simp [hs, hu, hp]
    obtain ⟨e1, e2, e3⟩ := h1 Violation.smtpServerMissing
    have e4 : ((c.admin_config.send_summary_email
        || c.admin_config.send_error_notifications)
          && c.admin_config.admin_emails.isEmpty) = false := by
      cases hs : c.admin_config.send_summary_email with
      | true => simp [hadmin (Or.inl hs)]
      | false =>
        cases he : c.admin_config.send_error_notifications with
        | true => simp [hadmin (Or.inr he)]
        | false => simp
    have e5 : c.pdf_names_mapping.isEmpty = false := by
      simpa [List.isEmpty_iff] using hmap
    have e6 : c.mailing_list.isEmpty = false := by
      simpa [List.isEmpty_iff] using hml
    have e7 : c.mailing_list.any
        (fun e => !c.pdf_names_mapping.any (fun kv => kv.2 == e.pdf_name))
          = false := by
      simp only [List.any_eq_false]
      intro e heml
      obtain ⟨kv, hkv, hval⟩ := horphan e heml
      simp only [Bool.not_eq_true', Bool.not_eq_false]
      exact List.any_eq_true.mpr ⟨kv, hkv, by simpa using hval⟩
    have e8 : c.pdf_names_mapping.any
        (fun kv => kv.2 != "Global Headers"
          && !c.mailing_list.any (fun e => e.pdf_name == kv.2)) = false := by
      simp only [List.any_eq_false]
      intro kv hkv
      simp only [Bool.and_eq_true, not_and, Bool.not_eq_true',
        List.any_eq_false]
      intro hgh
      have hgh' : kv.2 ≠ "Global Headers" := by simpa using hgh
      obtain ⟨e, heml, hval⟩ := hmissing kv hkv hgh'
      intro hall
      exact absurd (by simpa using hall e heml) (by simp [hval])
    simp [validate_configuration, e1, e2, e3, e4, e5, e6, e7, e8]

/-- A configuration whose single mailing entry references the undefined
    document DocB. -/
def cfgOrphaned : Config :=
  { email_config := ⟨true, "", "", ""⟩,
    admin_config := ⟨[], false, false⟩,
    pdf_names_mapping := [("FolderA", "DocA")],
    mailing_list := [⟨"DocB", ["a@b.co"], [], "Subj"⟩] }

/-- A configuration where the mapped document DocB has no mailing
    entry. -/
def cfgMissing : Config :=
  { email_config := ⟨true, "", "", ""⟩,
    admin_config := ⟨[], false, false⟩,
    pdf_names_mapping := [("FolderA", "DocA"), ("FolderB", "DocB")],
    mailing_list := [⟨"DocA", ["a@b.co"], [], "Subj"⟩] }

/-- A valid configuration: default mailer, notifications off, one folder
    mapped to DocA with a mailing entry, and the global pseudo-folder. -/
def cfgValid : Config :=
  { email_config := ⟨true, "", "", ""⟩,
    admin_config := ⟨[], false, false⟩,
    pdf_names_mapping := [("FolderA", "DocA"), ("ALL", "Global Headers")],
    mailing_list := [⟨"DocA", ["a@b.co"], [], "Subj"⟩] }

/-- Witness for C8 at concrete configurations: the orphaned-document and
    missing-entry violations are reported, and the valid configuration
    yields no violations. -/
theorem validate_configuration_cross_reference_witness :
    Violation.orphanedPdfNames ∈ (validate_configuration cfgOrphaned).2 ∧
    Violation.missingMailingEntries ∈ (validate_configuration cfgMissing).2 ∧
    validate_configuration cfgValid = (true, []) :=
  ⟨(validate_configuration_cross_reference cfgOrphaned).1
      ⟨"DocB", ["a@b.co"], [], "Subj"⟩ (by decide) (by decide),
   (validate_configuration_cross_reference cfgMissing).2.1
      ("FolderB", "DocB") (by decide) (by decide) (by decide),
   (validate_configuration_cross_reference cfgValid).2.2
      (by unfold ConfigValidSpec; decide)⟩

/-- The dispatch loop counts the successful entries and attempts every
    entry once, in order, whatever the per-entry outcomes are. -/
theorem sendLoop_go (dispatch : MailingEntry → Bool)
    (entries : List MailingEntry) :
    ∀ acc : Nat × List Event,
      entries.foldl
        (fun acc e =>
          ((if dispatch e then acc.1 + 1 else acc.1),
            acc.2 ++ [Event.dispatchAttempt e])) acc =
      (acc.1 + entries.countP dispatch,
        acc.2 ++ entries.map Event.dispatchAttempt) := by
  induction entries with
  | nil => intro acc; simp
  | cons e rest ih =>
    intro acc
    rw [List.foldl_cons, ih]
    cases h : dispatch e <;> simp [List.countP_cons, h]
    omega

/-- Closed form of the dispatch loop. -/
theorem sendLoop_spec (dispatch : MailingEntry → Bool)
    (entries : List MailingEntry) :
    sendLoop dispatch entries =
      (entries.countP dispatch, entries.map Event.dispatchAttempt) := by
  unfold sendLoop
  rw [sendLoop_go]
  simp

/-- Every event emitted by send_pdf_emails is a dispatch attempt; the
    function itself moves no files. -/
theorem send_pdf_emails_events (ml : List MailingEntry) (pn : String)
    (so : Bool) (d : MailingEntry → Bool) :
    ∀ ev ∈ (send_pdf_emails ml pn so d).2,
      ∃ e, ev = Event.dispatchAttempt e := by
  intro ev hev
  unfold send_pdf_emails at hev
  cases hemp : (get_mailing_entries_for_pdf ml pn).isEmpty with
  | true => simp [hemp] at hev
  | false =>
    cases so with
    | false => simp [hemp] at hev
    | true =>
      simp only [hemp, sendLoop_spec, Bool.not_true, if_false,
        Bool.false_eq_true, if_neg, ite_false] at hev
      simp at hev
      obtain ⟨e, _, rfl⟩ := hev
      exact ⟨e, rfl⟩

/-- C2: with the attachment-size check passing (the pipeline only reaches
    dispatch after the same size comparison already passed), a folder with
    a nonempty list of matching mailing entries gets exactly one dispatch
    attempt per entry, in order, for every possible per-entry outcome, and
    the returned success flag is true iff every entry's dispatch returned
    success; a PDF name matching zero entries fails with no dispatch
    attempt. -/
theorem send_pdf_emails_per_entry (ml : List MailingEntry) (pn : String)
    (dispatch : MailingEntry → Bool) :
    (get_mailing_entries_for_pdf ml pn ≠ [] →
      (send_pdf_emails ml pn true dispatch).2 =
        (get_mailing_entries_for_pdf ml pn).map Event.dispatchAttempt ∧
      ((send_pdf_emails ml pn true dispatch).1 = true ↔
        ∀ e ∈ get_mailing_entries_for_pdf ml pn, dispatch e = true)) ∧
    (get_mailing_entries_for_pdf ml pn = [] →
      send_pdf_emails ml pn true dispatch = (false, [])) := by
  constructor
  · intro hne
    have hemp : (get_mailing_entries_for_pdf ml pn).isEmpty = false := by
      simpa [List.isEmpty_iff] using hne
    constructor
    · simp [send_pdf_emails, hemp, sendLoop_spec]
    · simp only [send_pdf_emails, hemp, sendLoop_spec, Bool.not_true,
        Bool.false_eq_true, if_false]
      rw [beq_iff_eq]
      exact List.countP_eq_length
  · intro hnil
    simp [send_pdf_emails, hnil]

/-- Two mailing entries for the document DocA. -/
def mlW : List MailingEntry :=
  [⟨"DocA", ["a@b.co"], [], "S1"⟩, ⟨"DocA", ["b@b.co"], [], "S2"⟩]

/-- A dispatch oracle under which only the first entry succeeds. -/
def dispW : MailingEntry → Bool := fun e => e.subject == "S1"

/-- Witness for C2 at concrete inputs: both entries of DocA are
    attempted although the second one fails, an all-success oracle yields
    a true flag, and an unknown document name fails with no attempts. -/
theorem send_pdf_emails_per_entry_witness :
    (send_pdf_emails mlW "DocA" true dispW).2 =
      (get_mailing_entries_for_pdf mlW "DocA").map Event.dispatchAttempt ∧
    (send_pdf_emails mlW "DocA" true (fun _ => true)).1 = true ∧
    send_pdf_emails mlW "NoDoc" true dispW = (false, []) :=
  ⟨((send_pdf_emails_per_entry mlW "DocA" dispW).1 (by decide)).1,
   ((send_pdf_emails_per_entry mlW "DocA" (fun _ => true)).1
      (by decide)).2.mpr (by decide),
   (send_pdf_emails_per_entry mlW "NoDoc" dispW).2 (by decide)⟩

/-- C1: archiving is attempted only when dispatch fully succeeded.  If
    the dispatch stage reported failure, the outcome's archived flag is
    false and the whole trace consists of dispatch attempts only: no
    archive operation runs, so the source images and the rendered
    document are left in place.  Conversely any archive event in the trace
    implies the dispatch flag was true. -/
theorem archiving_requires_dispatch_success (folder_name : String)
    (ml : List MailingEntry) (b : FolderBehavior) :
    ((process_single_folder folder_name ml b).1.emails_sent = false →
      (process_single_folder folder_name ml b).1.files_archived = false ∧
      ∀ ev ∈ (process_single_folder folder_name ml b).2,
        ∃ e, ev = Event.dispatchAttempt e) ∧
    (∀ p, Event.archivePdf p ∈ (process_single_folder folder_name ml b).2 →
      (process_single_folder folder_name ml b).1.emails_sent = true) ∧
    (∀ f, Event.archivePngs f ∈ (process_single_folder folder_name ml b).2 →
      (process_single_folder folder_name ml b).1.emails_sent = true) := by
  cases b with
  | raises msg => simp [process_single_folder]
  | normal env =>
    obtain ⟨pp, so, mpn, dsp, pao, gao⟩ := env
    cases pp with
    | none => simp [process_single_folder]
    | some p =>
      cases so with
      | false => simp [process_single_folder]
      | true =>
        cases hsent : (send_pdf_emails ml mpn true dsp).1 with
        | false =>
          simp only [process_single_folder, hsent, Bool.not_true,
            Bool.false_eq_true, if_false, ite_false]
          refine ⟨fun _ => ⟨by trivial, send_pdf_emails_events ml mpn true dsp⟩,
            ?_, ?_⟩
          · intro q hq
            obtain ⟨e, he⟩ := send_pdf_emails_events ml mpn true dsp _ hq
            exact absurd he (by simp)
          · intro f hf
            obtain ⟨e, he⟩ := send_pdf_emails_events ml mpn true dsp _ hf
            exact absurd he (by simp)
        | true =>
          simp [process_single_folder, hsent]

/-- Oracles for a folder whose PDF renders fine but whose second mailing
    entry fails to dispatch. -/
def envW : FolderEnv :=
  { pdf_path := some "out.pdf", size_ok := true, metadata_pdf_name := "DocA"
    dispatch := dispW, pdf_archive_ok := true, png_archive_ok := true }

/-- Witness for C1 at concrete inputs: with one of two entries failing,
    the archived flag is false. -/
theorem archiving_requires_dispatch_success_witness :
    (process_single_folder "FolderA" mlW (.normal envW)).1.files_archived
      = false :=
  ((archiving_requires_dispatch_success "FolderA" mlW (.normal envW)).1
    (by decide)).1

/-- C5 counterexample: a folder whose combined image set is empty.
    generate_pdf_for_folder returns None, _process_single_folder cannot
    distinguish that from a build failure, and the outcome's error field
    is set to the PDF-generation failure message instead of staying
    unset. -/
theorem empty_image_set_records_error :
    combine_png_files (get_png_files []) (get_png_files []) = [] ∧
    (process_single_folder "FolderA" mlW (.normal
      { pdf_path :=
          generate_pdf_for_folder (some "DocA") true [] [] true "out.pdf",
        size_ok := true, metadata_pdf_name := "DocA",
        dispatch := fun _ => true, pdf_archive_ok := true,
        png_archive_ok := true })).1.pdf_created = false ∧
    (process_single_folder "FolderA" mlW (.normal
      { pdf_path :=
          generate_pdf_for_folder (some "DocA") true [] [] true "out.pdf",
        size_ok := true, metadata_pdf_name := "DocA",
        dispatch := fun _ => true, pdf_archive_ok := true,
        png_archive_ok := true })).1.error ≠ none :=
  ⟨rfl, rfl, by decide⟩

/-- C5 amended: for every folder whose combined image set is empty, the
    pipeline short-circuits with pdf_created false and no side effects,
    but the outcome's error field is set to the generic message
    PDF generation failed (the empty set and a renderer failure are
    indistinguishable at the pipeline level). -/
theorem empty_image_set_short_circuit (folder_name : String)
    (ml : List MailingEntry) (env : FolderEnv) (pn : Option String)
    (fe : Bool) (ap fp : List PngFile) (co : Bool) (op : String)
    (hgen : env.pdf_path = generate_pdf_for_folder pn fe ap fp co op)
    (hempty : combine_png_files (get_png_files ap) (get_png_files fp) = []) :
    (process_single_folder folder_name ml (.normal env)).1.pdf_created
      = false ∧
    (process_single_folder folder_name ml (.normal env)).1.error =
      some "PDF generation failed" ∧
    (process_single_folder folder_name ml (.normal env)).2 = [] := by
  obtain ⟨pp, so, mpn, dsp, pao, gao⟩ := env
  have hnone : pp = none := by
    rw [show pp = generate_pdf_for_folder pn fe ap fp co op from hgen]
    unfold generate_pdf_for_folder
    cases pn with
    | none => rfl
    | some s =>
      cases fe with
      | false => rfl
      | true => simp [hempty]
  subst hnone
  simp [process_single_folder]

/-- Witness for the amended C5 at concrete inputs. -/
theorem empty_image_set_short_circuit_witness :
    (process_single_folder "FolderA" mlW (.normal
      { pdf_path :=
          generate_pdf_for_folder (some "DocA") true [] [] true "out.pdf",
        size_ok := true, metadata_pdf_name := "DocA",
        dispatch := fun _ => true, pdf_archive_ok := true,
        png_archive_ok := true })).1.error =
      some "PDF generation failed" :=
  (empty_image_set_short_circuit "FolderA" mlW _
    (some "DocA") true [] [] true "out.pdf" rfl rfl).2.1

/-- C9: an exception while processing one folder is captured into that
    folder's outcome record as the error field and does not abort the
    run: under a valid configuration and a free lock the run returns one
    outcome per attempted folder, in order, and a raising folder's
    outcome carries its exception message while the other folders are
    still processed.  Only configuration-validation failure and lock
    acquisition failure abort the run entirely. -/
theorem run_isolates_folder_failures (c : Config) (lk : LockState)
    (now : Int) (pid : Nat) (t : Int)
    (folders : List (String × FolderBehavior)) :
    ((validate_configuration c).1 = true →
      (acquire_lock now pid t lk).1 = true →
      run_system c lk now pid t folders =
        .ok (run_full_processing c.mailing_list folders)) ∧
    ((run_full_processing c.mailing_list folders).map Prod.fst =
      folders.map Prod.fst) ∧
    (∀ name msg, (name, FolderBehavior.raises msg) ∈ folders →
      (process_single_folder name c.mailing_list
        (FolderBehavior.raises msg)).1.error =
          some ("Processing exception: " ++ msg) ∧
      (name, (process_single_folder name c.mailing_list
        (FolderBehavior.raises msg)).1) ∈
          run_full_processing c.mailing_list folders) ∧
    ((validate_configuration c).1 = false →
      run_system c lk now pid t folders =
        .error "Configuration validation failed") ∧
    ((validate_configuration c).1 = true →
      (acquire_lock now pid t lk).1 = false →
      run_system c lk now pid t folders =
        .error "Could not acquire processing lock") := by
  refine ⟨?_, ?_, ?_, ?_, ?_⟩
  · intro h1 h2
    simp [run_system, h1, h2]
  · simp [run_full_processing, List.map_map, Function.comp]
  · intro name msg h
    refine ⟨rfl, ?_⟩
    exact List.mem_map.mpr ⟨(name, FolderBehavior.raises msg), h, rfl⟩
  · intro h1
    simp [run_system, h1]
  · intro h1 h2
    simp [run_system, h1, h2]

/-- Witness for C9 at concrete inputs: a run over a raising folder and a
    normal folder returns one outcome each with the exception captured,
    an invalid configuration aborts, and a held lock aborts. -/
theorem run_isolates_folder_failures_witness :
    run_system cfgValid ⟨none⟩ 0 1 30
        [("A", FolderBehavior.raises "boom"), ("B", .normal envW)] =
      .ok (run_full_processing cfgValid.mailing_list
        [("A", FolderBehavior.raises "boom"), ("B", .normal envW)]) ∧
    (process_single_folder "A" cfgValid.mailing_list
      (FolderBehavior.raises "boom")).1.error =
        some ("Processing exception: " ++ "boom") ∧
    run_system cfgOrphaned ⟨none⟩ 0 1 30 [] =
      .error "Configuration validation failed" ∧
    run_system cfgValid ⟨some ⟨0, 0, 2⟩⟩ 100 1 30 [] =
      .error "Could not acquire processing lock" :=
  ⟨(run_isolates_folder_failures cfgValid ⟨none⟩ 0 1 30
      [("A", FolderBehavior.raises "boom"), ("B", .normal envW)]).1
      (by decide) (by decide),
   ((run_isolates_folder_failures cfgValid ⟨none⟩ 0 1 30
      [("A", FolderBehavior.raises "boom"), ("B", .normal envW)]).2.2.1
      "A" "boom" (by simp)).1,
   (run_isolates_folder_failures cfgOrphaned ⟨none⟩ 0 1 30 []).2.2.2.1
      (by decide),
   (run_isolates_folder_failures cfgValid ⟨some ⟨0, 0, 2⟩⟩ 100 1 30
      []).2.2.2.2 (by decide) (by decide)⟩

/-- Inserting files with fresh, pairwise distinct names into the ordered
    dict appends them in order. -/
theorem foldl_dictInsert_eq (fs : List PngFile) :
    ∀ m : List PngFile, (((m ++ fs).map PngFile.name).Nodup) →
      fs.foldl dictInsert m = m ++ fs := by
  induction fs with
  | nil => intro m _; simp
  | cons f fs ih =>
    intro m h
    rw [List.map_append, List.nodup_append] at h
    have hfm : f.name ∉ m.map PngFile.name := by
      intro hmem
      exact h.2.2 hmem (by simp)
    have hno : m.any (fun g => g.name == f.name) = false := by
      simp only [List.any_eq_false]
      intro g hg
      simp only [beq_iff_eq]
      intro he
      exact hfm (he ▸ List.mem_map.mpr ⟨g, hg, rfl⟩)
    have hstep : dictInsert m f = m ++ [f] := by
      unfold dictInsert
      rw [hno]
      simp
    rw [List.foldl_cons, hstep, ih (m ++ [f])
      (by rw [List.append_assoc]; simpa [List.nodup_append] using h)]
    simp

/-- Folder-phase insertion (only if the filename is absent) appends
    exactly the files whose names are absent from the accumulated dict,
    in order, provided the inserted names are pairwise distinct. -/
theorem foldl_guardInsert_eq (fs : List PngFile) :
    ∀ m : List PngFile, ((fs.map PngFile.name).Nodup) →
      fs.foldl (fun m f =>
        if m.any (fun g => g.name == f.name) then m else m ++ [f]) m =
      m ++ fs.filter (fun f => !(m.any (fun g => g.name == f.name))) := by
  induction fs with
  | nil => intro m _; simp
  | cons f fs ih =>
    intro m h
    rw [List.map_cons, List.nodup_cons] at h
    have hfn : f.name ∉ fs.map PngFile.name := h.1
    cases hany : m.any (fun g => g.name == f.name) with
    | true =>
      rw [List.foldl_cons]
      simp only [hany, if_true]
      rw [ih m h.2, List.filter_cons]
      simp [hany]
    | false =>
      rw [List.foldl_cons]
      simp only [hany, Bool.false_eq_true, if_false]
      rw [ih (m ++ [f]) h.2, List.filter_cons]
      simp only [hany, Bool.not_false, if_true]
      rw [List.append_assoc]
      simp only [List.singleton_append, List.cons_append]
      congr 2
      apply List.filter_congr
      intro g hg
      have hne : (f.name == g.name) = false := by
        simp only [beq_eq_false_iff_ne, ne_eq]
        intro he
        exact hfn (he ▸ List.mem_map.mpr ⟨g, hg, rfl⟩)
      simp [List.any_append, hne]

/-- The merged list is the ALL block followed by the folder files whose
    names do not collide with an ALL file, in order. -/
theorem combine_png_files_eq (ap fp : List PngFile)
    (ha : (ap.map PngFile.name).Nodup) (hf : (fp.map PngFile.name).Nodup) :
    combine_png_files ap fp =
      ap ++ fp.filter (fun f => !(ap.any (fun g => g.name == f.name))) := by
  unfold combine_png_files
  rw [foldl_dictInsert_eq ap [] (by simpa using ha)]
  simp only [List.nil_append]
  exact foldl_guardInsert_eq fp ap hf

/-- Filtering a list with pairwise distinct names by the name of one of
    its members yields exactly that member. -/
theorem filter_name_eq_single (l : List PngFile)
    (hn : (l.map PngFile.name).Nodup) (f : PngFile) (hf : f ∈ l) :
    l.filter (fun g => g.name == f.name) = [f] := by
  induction l with
  | nil => cases hf
  | cons a l ih =>
    rw [List.map_cons, List.nodup_cons] at hn
    rcases List.mem_cons.mp hf with rfl | hfl
    · rw [List.filter_cons]
      simp only [beq_self_eq_true, if_true]
      have : l.filter (fun g => g.name == f.name) = [] := by
        rw [List.filter_eq_nil_iff]
        intro g hg
        simp only [beq_iff_eq]
        intro he
        exact hn.1 (he ▸ List.mem_map.mpr ⟨g, hg, rfl⟩)
      rw [this]
    · have hne : (a.name == f.name) = false := by
        simp only [beq_eq_false_iff_ne, ne_eq]
        intro he
        exact hn.1 (he ▸ List.mem_map.mpr ⟨f, hfl, rfl⟩)
      rw [List.filter_cons]
      simp only [hne, Bool.false_eq_true, if_false]
      exact ih hn.2 hfl

/-- Sorting a directory listing keeps its names pairwise distinct. -/
theorem get_png_files_names_nodup (l : List PngFile)
    (h : (l.map PngFile.name).Nodup) :
    ((get_png_files l).map PngFile.name).Nodup :=
  (((List.perm_insertionSort pngLe l).map PngFile.name).nodup_iff).mpr h

/-- C6: when a filename occurs both in the global ALL listing and in the
    folder-specific listing, the merged input of the document builder
    contains exactly one file with that filename, and it is the
    global-folder record (directory and all); _create_pdf draws one page
    per merged file, so the rendered document gets exactly one page for
    that filename, sourced from the global folder. -/
theorem global_wins_on_filename_collision (A B : List PngFile)
    (ha : (A.map PngFile.name).Nodup) (hb : (B.map PngFile.name).Nodup)
    (f : PngFile) (hfA : f ∈ A) (_hcol : f.name ∈ B.map PngFile.name) :
    (combine_png_files (get_png_files A) (get_png_files B)).filter
      (fun g => g.name == f.name) = [f] := by
  have ha' := get_png_files_names_nodup A ha
  have hb' := get_png_files_names_nodup B hb
  rw [combine_png_files_eq _ _ ha' hb', List.filter_append]
  have hfA' : f ∈ get_png_files A :=
    ((List.perm_insertionSort pngLe A).mem_iff).mpr hfA
  rw [filter_name_eq_single _ ha' f hfA']
  have h2 : (((get_png_files B).filter
      (fun g => !((get_png_files A).any (fun h => h.name == g.name)))).filter
        (fun g => g.name == f.name)) = [] := by
    rw [List.filter_eq_nil_iff]
    intro g hg
    have hp := List.of_mem_filter hg
    simp only [Bool.not_eq_true', List.any_eq_false] at hp
    simp only [beq_iff_eq]
    intro he
    exact absurd (by simp [he]) (hp f hfA')
  rw [h2]
  simp

/-- Witness for C6 at concrete inputs: X.png exists in the ALL folder and
    in the folder listing; the merged list keeps exactly the ALL copy. -/
theorem global_wins_on_filename_collision_witness :
    (combine_png_files
        (get_png_files [⟨"ALL", "X.png"⟩, ⟨"ALL", "B.png"⟩])
        (get_png_files [⟨"FolderA", "X.png"⟩, ⟨"FolderA", "C.png"⟩])).filter
      (fun g => g.name == "X.png") = [⟨"ALL", "X.png"⟩] :=
  global_wins_on_filename_collision
    [⟨"ALL", "X.png"⟩, ⟨"ALL", "B.png"⟩]
    [⟨"FolderA", "X.png"⟩, ⟨"FolderA", "C.png"⟩]
    (by decide) (by decide) ⟨"ALL", "X.png"⟩ (by decide) (by decide)

/-- C10: the merged input of the document builder is the sorted ALL
    block followed by the sorted folder-specific files whose filenames do
    not collide with an ALL filename; each block is alphabetically
    ordered by filename (two sorted blocks, not one interleaved sort). -/
theorem combined_order_is_two_sorted_blocks (A B : List PngFile)
    (ha : (A.map PngFile.name).Nodup) (hb : (B.map PngFile.name).Nodup) :
    combine_png_files (get_png_files A) (get_png_files B) =
      get_png_files A ++ (get_png_files B).filter
        (fun f => !((get_png_files A).any (fun g => g.name == f.name))) ∧
    List.Sorted pngLe (get_png_files A) ∧
    List.Sorted pngLe ((get_png_files B).filter
      (fun f => !((get_png_files A).any (fun g => g.name == f.name)))) := by
  refine ⟨combine_png_files_eq _ _ (get_png_files_names_nodup A ha)
    (get_png_files_names_nodup B hb),
    List.sorted_insertionSort pngLe A, ?_⟩
  exact List.Pairwise.filter _ (List.sorted_insertionSort pngLe B)

/-- Witness for C10 at concrete inputs: the merged list of an unsorted
    ALL listing and an unsorted folder listing with one collision is the
    sorted ALL block followed by the sorted non-colliding folder files. -/
theorem combined_order_is_two_sorted_blocks_witness :
    combine_png_files
        (get_png_files [⟨"ALL", "Z.png"⟩, ⟨"ALL", "A.png"⟩])
        (get_png_files [⟨"FolderA", "Z.png"⟩, ⟨"FolderA", "M.png"⟩,
          ⟨"FolderA", "B.png"⟩]) =
      get_png_files [⟨"ALL", "Z.png"⟩, ⟨"ALL", "A.png"⟩] ++
        (get_png_files [⟨"FolderA", "Z.png"⟩, ⟨"FolderA", "M.png"⟩,
          ⟨"FolderA", "B.png"⟩]).filter
          (fun f => !((get_png_files
            [⟨"ALL", "Z.png"⟩, ⟨"ALL", "A.png"⟩]).any
              (fun g => g.name == f.name))) :=
  (combined_order_is_two_sorted_blocks
    [⟨"ALL", "Z.png"⟩, ⟨"ALL", "A.png"⟩]
    [⟨"FolderA", "Z.png"⟩, ⟨"FolderA", "M.png"⟩, ⟨"FolderA", "B.png"⟩]
    (by decide) (by decide)).1

example :
    combine_png_files
        (get_png_files [⟨"ALL", "Z.png"⟩, ⟨"ALL", "A.png"⟩])
        (get_png_files [⟨"FolderA", "Z.png"⟩, ⟨"FolderA", "M.png"⟩,
          ⟨"FolderA", "B.png"⟩]) =
      [⟨"ALL", "A.png"⟩, ⟨"ALL", "Z.png"⟩,
        ⟨"FolderA", "B.png"⟩, ⟨"FolderA", "M.png"⟩] := by decide

/-- The regex language of validate_email, phrased from the specification:
    a nonempty local part, an at sign, a nonempty domain, a dot, and an
    alphabetic suffix of length at least two. -/
def EmailShape (e : List Char) : Prop :=
  ∃ lp dm tl : List Char,
    e = lp ++ '@' :: (dm ++ '.' :: tl) ∧
    lp ≠ [] ∧ (∀ c ∈ lp, isLocalChar c = true) ∧
    dm ≠ [] ∧ (∀ c ∈ dm, isDomainChar c = true) ∧
    2 ≤ tl.length ∧ (∀ c ∈ tl, c.isAlpha = true)

/-- The split-point search pattern shared by validate_email and
    domainCheck: some index gives a nonempty prefix of p-characters, the
    separator, and a remainder accepted by K. -/
theorem existsSplit (p : Char → Bool) (sep : Char) (K : List Char → Bool)
    (l : List Char) :
    ((List.range l.length).any fun i =>
      decide (0 < i) && (l.take i).all p &&
        ((l.drop i).head? == some sep) && K (l.drop (i + 1))) = true ↔
    ∃ x y : List Char, l = x ++ sep :: y ∧ x ≠ [] ∧
      (∀ c ∈ x, p c = true) ∧ K y = true := by
  constructor
  · intro h
    obtain ⟨i, hi, hp⟩ := List.any_eq_true.mp h
    rw [List.mem_range] at hi
    simp only [Bool.and_eq_true, decide_eq_true_eq, List.all_eq_true,
      beq_iff_eq] at hp
    obtain ⟨⟨⟨h0, hall⟩, hhead⟩, hK⟩ := hp
    refine ⟨l.take i, l.drop (i + 1), ?_, ?_, hall, hK⟩
    · have hd : l.drop i = sep :: l.drop (i + 1) := by
        have ht := List.tail_drop l i
        cases hdi : l.drop i with
        | nil => rw [hdi] at hhead; simp at hhead
        | cons a t =>
          rw [hdi] at hhead ht
          simp only [List.head?_cons, Option.some.injEq] at hhead
          simp only [List.tail_cons] at ht
          rw [hhead, ht]
      calc l = l.take i ++ l.drop i := (List.take_append_drop i l).symm
        _ = l.take i ++ sep :: l.drop (i + 1) := by rw [hd]
    · have hlen : (l.take i).length = i := by
        rw [List.length_take]; omega
      intro hnil
      rw [hnil] at hlen
      simp at hlen
      omega
  · rintro ⟨x, y, rfl, hx, hall, hK⟩
    refine List.any_eq_true.mpr ⟨x.length, ?_, ?_⟩
    · rw [List.mem_range, List.length_append, List.length_cons]
      omega
    · simp only [Bool.and_eq_true, decide_eq_true_eq, List.all_eq_true,
        beq_iff_eq]
      refine ⟨⟨⟨List.length_pos.mpr hx, ?_⟩, ?_⟩, ?_⟩
      · intro c hc
        rw [List.take_left] at hc
        exact hall c hc
      · rw [List.drop_left]
        rfl
      · have hdr : (x ++ sep :: y).drop (x.length + 1) = y := by
          rw [show x ++ sep :: y = (x ++ [sep]) ++ y by simp]
          exact List.drop_left' (by simp)
        rw [hdr]
        exact hK

/-- Characterization of the part after the at sign. -/
theorem domainCheck_iff (d : List Char) :
    domainCheck d = true ↔
      ∃ dm tl : List Char, d = dm ++ '.' :: tl ∧ dm ≠ [] ∧
        (∀ c ∈ dm, isDomainChar c = true) ∧ 2 ≤ tl.length ∧
        (∀ c ∈ tl, c.isAlpha = true) := by
  unfold domainCheck
  rw [existsSplit isDomainChar '.' isTldTail d]
  constructor
  · rintro ⟨x, y, rfl, hx, hall, hK⟩
    unfold isTldTail at hK
    simp only [Bool.and_eq_true, decide_eq_true_eq, List.all_eq_true] at hK
    exact ⟨x, y, rfl, hx, hall, hK.1, hK.2⟩
  · rintro ⟨dm, tl, rfl, h1, h2, h3, h4⟩
    refine ⟨dm, tl, rfl, h1, h2, ?_⟩
    unfold isTldTail
    simp only [Bool.and_eq_true, decide_eq_true_eq, List.all_eq_true]
    exact ⟨h3, h4⟩

/-- validate_email accepts exactly the strings of the regex shape. -/
theorem validate_email_iff (e : List Char) :
    validate_email e = true ↔ EmailShape e := by
  unfold validate_email
  rw [existsSplit isLocalChar '@' domainCheck e]
  constructor
  · rintro ⟨lp, d, rfl, h1, h2, h3⟩
    obtain ⟨dm, tl, rfl, h4, h5, h6, h7⟩ := (domainCheck_iff d).mp h3
    exact ⟨lp, dm, tl, rfl, h1, h2, h4, h5, h6, h7⟩
  · rintro ⟨lp, dm, tl, rfl, h1, h2, h4, h5, h6, h7⟩
    exact ⟨lp, dm ++ '.' :: tl, rfl, h1, h2,
      (domainCheck_iff _).mpr ⟨dm, tl, rfl, h4, h5, h6, h7⟩⟩

/-- An accepted address contains an at sign. -/
theorem validate_email_mem (e : List Char) (h : validate_email e = true) :
    ('@' : Char) ∈ e := by
  obtain ⟨lp, dm, tl, rfl, _⟩ := (validate_email_iff e).mp h
  simp

/-- splitSemi never returns the empty list of components. -/
theorem splitSemi_ne_nil (l : List Char) : splitSemi l ≠ [] := by
  cases l with
  | nil => simp [splitSemi]
  | cons c cs =>
    unfold splitSemi
    split <;> simp

/-- Every character of a component of splitSemi comes from the input. -/
theorem mem_splitSemi_subset (l : List Char) :
    ∀ m ∈ splitSemi l, ∀ c ∈ m, c ∈ l := by
  induction l with
  | nil =>
    intro m hm c hc
    simp only [splitSemi, List.mem_singleton] at hm
    subst hm
    cases hc
  | cons a as ih =>
    intro m hm c hc
    rcases hss : splitSemi as with _ | ⟨h, t⟩
    · exact absurd hss (splitSemi_ne_nil as)
    · by_cases ha : a = ';'
      · subst ha
        simp only [splitSemi, hss, decide_True, List.mem_cons] at hm
        rcases hm with rfl | hm'
        · cases hc
        · have hms : m ∈ splitSemi as := by
            rw [hss]
            exact List.mem_cons.mpr hm'
          exact List.mem_cons_of_mem _ (ih m hms c hc)
      · simp only [splitSemi, hss, ha, decide_False, List.mem_cons] at hm
        rcases hm with rfl | hm'
        · rcases List.mem_cons.mp hc with rfl | hch
          · exact List.mem_cons_self c as
          · have hhs : h ∈ splitSemi as := by
              rw [hss]; exact List.mem_cons_self h t
            exact List.mem_cons_of_mem a (ih h hhs c hch)
        · have hms : m ∈ splitSemi as := by
            rw [hss]; exact List.mem_cons_of_mem h hm'
          exact List.mem_cons_of_mem a (ih m hms c hc)

/-- Stripping keeps only characters of the input. -/
theorem mem_pyStrip (m : List Char) (c : Char) (hc : c ∈ pyStrip m) :
    c ∈ m := by
  unfold pyStrip at hc
  rw [List.mem_reverse] at hc
  have hc2 := (List.dropWhile_sublist isPySpace).subset hc
  rw [List.mem_reverse] at hc2
  exact (List.dropWhile_sublist isPySpace).subset hc2

/-- A string that strips to nothing is all whitespace. -/
theorem pyStrip_eq_nil_imp (l : List Char) (h : pyStrip l = []) :
    ∀ c ∈ l, isPySpace c = true := by
  unfold pyStrip at h
  rw [List.reverse_eq_nil_iff, List.dropWhile_eq_nil_iff] at h
  intro c hc
  have hc' : c ∈ l.takeWhile isPySpace ++ l.dropWhile isPySpace := by
    rw [List.takeWhile_append_dropWhile]
    exact hc
  rcases List.mem_append.mp hc' with h1 | h2
  · exact List.mem_takeWhile_imp h1
  · exact h c (List.mem_reverse.mpr h2)

/-- C7: split_email_list returns exactly the stripped components of the
    semicolon-separated input that are syntactically valid addresses, in
    their original order (invalid components are dropped; the function
    never fails), and validity is exactly the regex shape: local part,
    at sign, domain, dot, alphabetic suffix of length at least two. -/
theorem split_email_list_valid_only (l : List Char) :
    split_email_list l =
      ((splitSemi l).map pyStrip).filter validate_email ∧
    ∀ e : List Char, validate_email e = true ↔ EmailShape e := by
  refine ⟨?_, validate_email_iff⟩
  unfold split_email_list
  by_cases h1 : pyStrip l = []
  · rw [if_pos h1]
    symm
    rw [List.filter_eq_nil_iff]
    intro e he hval
    obtain ⟨m, hm, rfl⟩ := List.mem_map.mp he
    have hat : ('@' : Char) ∈ l :=
      mem_splitSemi_subset l m hm '@' (mem_pyStrip m '@'
        (validate_email_mem _ hval))
    have := pyStrip_eq_nil_imp l h1 '@' hat
    exact absurd this (by decide)
  · rw [if_neg h1]
    by_cases h2 : l.map Char.toLower = ['n', 'a', 'n']
    · rw [if_pos h2]
      symm
      rw [List.filter_eq_nil_iff]
      intro e he hval
      obtain ⟨m, hm, rfl⟩ := List.mem_map.mp he
      have hat : ('@' : Char) ∈ l :=
        mem_splitSemi_subset l m hm '@' (mem_pyStrip m '@'
          (validate_email_mem _ hval))
      have h3 : ('@' : Char).toLower ∈ l.map Char.toLower :=
        List.mem_map_of_mem Char.toLower hat
      rw [h2] at h3
      exact absurd h3 (by decide)
    · rw [if_neg h2]

/-- Witness for C7 at a concrete input: two valid addresses and one
    malformed component yield exactly the two valid addresses, in
    order. -/
theorem split_email_list_valid_only_witness :
    split_email_list "a@test.com;b@test.com;invalid-email".toList =
      ["a@test.com".toList, "b@test.com".toList] := by
  rw [(split_email_list_valid_only
    "a@test.com;b@test.com;invalid-email".toList).1]
  decide

end BIMailer
